import Mathlib

/-!
Shallow embedding of `src/Source/Carla/MapGen/RoadMap.cpp` (CARLA road map).

Floating-point values of the source (`float`, `FVector`, `FQuat`) are modeled by
exact rationals: the spec describes the intended real-valued behaviour, and all
claims below are about that idealized arithmetic.  Rotations (`FQuat`) are
modeled by `Quaternion ℚ`; `FQuat` is kept normalized by the engine, so theorems
that need it carry a `normSq = 1` hypothesis.
-/

namespace RoadMapModel

/-- Embedding of `FVector`, components as exact rationals. -/
structure Vec3 where
  x : ℚ
  y : ℚ
  z : ℚ
deriving DecidableEq, Repr

instance : Add Vec3 := ⟨fun a b => ⟨a.x + b.x, a.y + b.y, a.z + b.z⟩⟩

instance : Sub Vec3 := ⟨fun a b => ⟨a.x - b.x, a.y - b.y, a.z - b.z⟩⟩

instance : Neg Vec3 := ⟨fun a => ⟨-a.x, -a.y, -a.z⟩⟩

@[simp] theorem Vec3.add_x (a b : Vec3) : (a + b).x = a.x + b.x := rfl

@[simp] theorem Vec3.add_y (a b : Vec3) : (a + b).y = a.y + b.y := rfl

@[simp] theorem Vec3.add_z (a b : Vec3) : (a + b).z = a.z + b.z := rfl

@[simp] theorem Vec3.sub_x (a b : Vec3) : (a - b).x = a.x - b.x := rfl

@[simp] theorem Vec3.sub_y (a b : Vec3) : (a - b).y = a.y - b.y := rfl

@[simp] theorem Vec3.sub_z (a b : Vec3) : (a - b).z = a.z - b.z := rfl

@[simp] theorem Vec3.neg_x (a : Vec3) : (-a).x = -a.x := rfl

@[simp] theorem Vec3.neg_y (a : Vec3) : (-a).y = -a.y := rfl

@[simp] theorem Vec3.neg_z (a : Vec3) : (-a).z = -a.z := rfl

theorem Vec3.ext_iff {a b : Vec3} : a = b ↔ a.x = b.x ∧ a.y = b.y ∧ a.z = b.z := by
  constructor
  · rintro rfl; exact ⟨rfl, rfl, rfl⟩
  · rintro ⟨hx, hy, hz⟩; cases a; cases b; simp_all

/-- Embedding of `FVector::DotProduct`. -/
def dot3 (a b : Vec3) : ℚ := a.x * b.x + a.y * b.y + a.z * b.z

/-- View a vector as a pure (real-part-zero) quaternion. -/
def Vec3.toQuat (v : Vec3) : Quaternion ℚ := ⟨0, v.x, v.y, v.z⟩

/-- The imaginary part of a quaternion, as a vector. -/
def quatIm (q : Quaternion ℚ) : Vec3 := ⟨q.imI, q.imJ, q.imK⟩

@[simp] theorem Vec3.toQuat_re (v : Vec3) : v.toQuat.re = 0 := rfl

@[simp] theorem Vec3.toQuat_imI (v : Vec3) : v.toQuat.imI = v.x := rfl

@[simp] theorem Vec3.toQuat_imJ (v : Vec3) : v.toQuat.imJ = v.y := rfl

@[simp] theorem Vec3.toQuat_imK (v : Vec3) : v.toQuat.imK = v.z := rfl

/-- Rotation of a vector by a quaternion, `q * v * q⋆` (embedding of
`FQuat::RotateVector`; exact for unit quaternions). -/
def rotateVector (q : Quaternion ℚ) (v : Vec3) : Vec3 := quatIm (q * v.toQuat * star q)

/-- Embedding of `FQuat::GetForwardVector`: the image of the world X axis. -/
def GetForwardVector (q : Quaternion ℚ) : Vec3 := rotateVector q ⟨1, 0, 0⟩

theorem re_conj_pure (q u : Quaternion ℚ) (h : u.re = 0) : (q * u * star q).re = 0 := by
  simp only [Quaternion.mul_re, Quaternion.star_re, Quaternion.star_imI, Quaternion.star_imJ,
    Quaternion.star_imK, Quaternion.mul_imI, Quaternion.mul_imJ, Quaternion.mul_imK, h]
  ring

theorem toQuat_quatIm (p : Quaternion ℚ) (h : p.re = 0) : (quatIm p).toQuat = p := by
  cases p
  simp only [quatIm, Vec3.toQuat] at *
  simp_all [Quaternion.ext_iff]

theorem rotateVector_mul (p q : Quaternion ℚ) (v : Vec3) :
    rotateVector (p * q) v = rotateVector p (rotateVector q v) := by
  unfold rotateVector
  rw [toQuat_quatIm (q * v.toQuat * star q) (re_conj_pure q v.toQuat rfl)]
  rw [star_mul]
  simp only [mul_assoc]

@[simp] theorem rotateVector_one (v : Vec3) : rotateVector 1 v = v := by
  unfold rotateVector
  rw [star_one, mul_one, one_mul]
  cases v
  rfl

theorem rotateVector_star_cancel (q : Quaternion ℚ) (v : Vec3)
    (h : Quaternion.normSq q = 1) : rotateVector q (rotateVector (star q) v) = v := by
  rw [← rotateVector_mul, Quaternion.self_mul_star, h]
  norm_num

/-- Embedding of `FTransform` as rotation plus translation (the source never sets
a scale; spec §4.1 describes the transform as rotation+translation). -/
structure FTransform where
  rotation : Quaternion ℚ
  translation : Vec3

/-- Embedding of `FTransform::TransformPosition`. -/
def FTransform.TransformPosition (t : FTransform) (p : Vec3) : Vec3 :=
  rotateVector t.rotation p + t.translation

/-- Embedding of `FTransform::InverseTransformPosition` (inverse rotation of a
unit quaternion is its conjugate). -/
def FTransform.InverseTransformPosition (t : FTransform) (p : Vec3) : Vec3 :=
  rotateVector (star t.rotation) (p - t.translation)

/-- The identity transform (default-constructed `FTransform`). -/
def idTransform : FTransform := ⟨1, ⟨0, 0, 0⟩⟩

theorem transform_inv_cancel (t : FTransform) (p : Vec3)
    (h : Quaternion.normSq t.rotation = 1) :
    t.TransformPosition (t.InverseTransformPosition p) = p := by
  unfold FTransform.TransformPosition FTransform.InverseTransformPosition
  rw [rotateVector_star_cancel _ _ h]
  rw [Vec3.ext_iff]
  refine ⟨?_, ?_, ?_⟩ <;> simp

/-- Embedding of `FRoadMapPixelData` (declared in RoadMap.h; its three fields
`bIsOffRoad`, `bHasDirection`, `Direction` are the ones RoadMap.cpp reads and
writes, per the spec data model §3). -/
structure FRoadMapPixelData where
  bIsOffRoad : Bool
  bHasDirection : Bool
  Direction : Vec3
deriving DecidableEq, Repr

/-- Modelled from the spec: `URoadMap::AppendEmptyPixel` is declared in
RoadMap.h, which is not under src/; §4.6 says it appends a cell with
`offRoad=true`, `hasDirection=false` (direction fields zero-initialized by the
engine). This is the pixel it appends. -/
def emptyPixel : FRoadMapPixelData := ⟨true, false, ⟨0, 0, 0⟩⟩

/-- Embedding of `URoadMap`: the grid fields read and written by RoadMap.cpp. -/
structure URoadMap where
  PixelsPerCentimeter : ℚ
  Width : ℕ
  Height : ℕ
  WorldToMap : FTransform
  MapOffset : Vec3
  RoadMap : List FRoadMapPixelData

namespace URoadMap

/-- Modelled from the spec: `URoadMap::AppendEmptyPixel` (RoadMap.h, not under
src/) appends one off-road cell to the backing array (§4.6). -/
def AppendEmptyPixel (g : URoadMap) : URoadMap :=
  { g with RoadMap := g.RoadMap ++ [emptyPixel] }

/-- Embedding of the constructor `URoadMap::URoadMap` (RoadMap.cpp:15-22):
`PixelsPerCentimeter = 1`, `Width = Height = 1`, then `AppendEmptyPixel()`.
Transform and offset are engine-default (identity / zero). -/
def init : URoadMap :=
  AppendEmptyPixel
    { PixelsPerCentimeter := 1
      Width := 1
      Height := 1
      WorldToMap := idTransform
      MapOffset := ⟨0, 0, 0⟩
      RoadMap := [] }

/-- Modelled from the spec: `URoadMap::IsValid` is declared in RoadMap.h, not
under src/; §4.2 defines a valid grid as non-empty with
`width*height == cells.length` and both positive. -/
def IsValid (g : URoadMap) : Bool :=
  decide (g.RoadMap.length = g.Width * g.Height) && decide (0 < g.Width * g.Height)

end URoadMap

/-- Embedding of `ClampFloatToUInt` (RoadMap.cpp:9-12):
`FMath::Clamp(FMath::FloorToInt(Value), Min, Max)`, where
`FMath::Clamp(X,Min,Max)` is `X < Min ? Min : (X < Max ? X : Max)`. -/
def ClampFloatToUInt (value : ℚ) (mn mx : ℤ) : ℤ :=
  if ⌊value⌋ < mn then mn else if ⌊value⌋ < mx then ⌊value⌋ else mx

namespace URoadMap

/-- Embedding of `URoadMap::GetWorldLocation` (RoadMap.cpp:24-31). -/
def GetWorldLocation (g : URoadMap) (pixelX pixelY : ℕ) : Vec3 :=
  let relativePosition : Vec3 :=
    ⟨(pixelX : ℚ) / g.PixelsPerCentimeter, (pixelY : ℚ) / g.PixelsPerCentimeter, 0⟩
  g.WorldToMap.InverseTransformPosition (relativePosition + g.MapOffset)

/-- Modelled from the spec: the pixel-index overload
`URoadMap::GetDataAt(uint32,uint32)` is declared in RoadMap.h, not under src/;
§3: row-major storage, index `y*width + x`.  An out-of-range read (impossible on
a valid grid with in-range indices) yields the off-road default. -/
def GetDataAtPixel (g : URoadMap) (x y : ℕ) : FRoadMapPixelData :=
  g.RoadMap.getD (y * g.Width + x) emptyPixel

/-- The world-position to pixel-index mapping performed by
`URoadMap::GetDataAt(FVector)` (RoadMap.cpp:33-40): transform, subtract the
offset, scale, then floor-and-clamp each axis. -/
def worldToPixel (g : URoadMap) (worldLocation : Vec3) : ℤ × ℤ :=
  let location := g.WorldToMap.TransformPosition worldLocation - g.MapOffset
  (ClampFloatToUInt (g.PixelsPerCentimeter * location.x) 0 ((g.Width : ℤ) - 1),
   ClampFloatToUInt (g.PixelsPerCentimeter * location.y) 0 ((g.Height : ℤ) - 1))

/-- Embedding of `URoadMap::GetDataAt(FVector)` (RoadMap.cpp:33-40). The
`check(IsValid())` assertion is a fatal precondition in the source; the model is
total and claims carry validity hypotheses where relevant. -/
def GetDataAt (g : URoadMap) (worldLocation : Vec3) : FRoadMapPixelData :=
  GetDataAtPixel g (worldToPixel g worldLocation).1.toNat (worldToPixel g worldLocation).2.toNat

/-- Embedding of `URoadMap::Set` (RoadMap.cpp:160-172): overwrites the five
configuration fields; it does not touch the `RoadMap` cell array. -/
def Set (g : URoadMap) (inWidth inHeight : ℕ) (inPixelsPerCentimeter : ℚ)
    (inWorldToMap : FTransform) (inMapOffset : Vec3) : URoadMap :=
  { g with
    Width := inWidth
    Height := inHeight
    PixelsPerCentimeter := inPixelsPerCentimeter
    WorldToMap := inWorldToMap
    MapOffset := inMapOffset }

end URoadMap

/-- Embedding of `FRoadMapIntersectionResult` (fractions as exact rationals). -/
structure FRoadMapIntersectionResult where
  OffRoad : ℚ
  OppositeLane : ℚ
deriving DecidableEq, Repr

/-- Value of the loop variable at the start of iteration `n` of
`for (X = -Extent; X < Extent; X += Step)` (RoadMap.cpp:50), in exact
arithmetic. -/
def xIter (extent step : ℚ) (n : ℕ) : ℚ := -extent + n * step

/-- Termination of that loop: its guard eventually fails. -/
def loopTerminates (extent step : ℚ) : Prop := ∃ n : ℕ, ¬ xIter extent step n < extent

/-- Number of iterations the loop performs when `step > 0` (the least `n` at
which the guard fails; see `iterCount_guard_iff`). -/
def iterCount (extent step : ℚ) : ℕ := (⌈2 * extent / step⌉).toNat

/-- The sample offsets generated by the two nested loops of
`URoadMap::Intersect` (RoadMap.cpp:50-63), outer axis X, inner axis Y. -/
def boxSamples (extentX extentY step : ℚ) : List (ℚ × ℚ) :=
  (List.range (iterCount extentX step)).flatMap fun i =>
    (List.range (iterCount extentY step)).map fun j =>
      (xIter extentX step i, xIter extentY step j)

/-- The per-sample opposite-lane test of `URoadMap::Intersect`
(RoadMap.cpp:55-61): not off-road, has a direction, and that direction has a
strictly positive dot product with the footprint's direction of movement. -/
def isOppositeLane (d : FRoadMapPixelData) (directionOfMovement : Vec3) : Bool :=
  !d.bIsOffRoad && (d.bHasDirection && decide (0 < dot3 d.Direction directionOfMovement))

namespace URoadMap

/-- Embedding of `URoadMap::Intersect` (RoadMap.cpp:42-71).  Returns the result
together with a flag that is true exactly when the source logs its
"did zero checks" warning.  The sample set is the loop's exact iteration
sequence for `ChecksPerCentimeter > 0`, the domain on which the source loop
terminates (claim C9). -/
def Intersect (g : URoadMap) (boxTransform : FTransform) (boxExtent : Vec3)
    (checksPerCentimeter : ℚ) : FRoadMapIntersectionResult × Bool :=
  let directionOfMovement := GetForwardVector boxTransform.rotation
  let step := 1 / checksPerCentimeter
  let samples := boxSamples boxExtent.x boxExtent.y step
  let dataAt := fun s : ℚ × ℚ => GetDataAt g (boxTransform.TransformPosition ⟨s.1, s.2, 0⟩)
  let offRoadCount := (samples.filter fun s => (dataAt s).bIsOffRoad).length
  let oppositeLaneCount :=
    (samples.filter fun s => isOppositeLane (dataAt s) directionOfMovement).length
  let checkCount := samples.length
  if 0 < checkCount then
    (⟨(offRoadCount : ℚ) / (checkCount : ℚ), (oppositeLaneCount : ℚ) / (checkCount : ℚ)⟩, false)
  else
    (⟨0, 0⟩, true)

end URoadMap

/-- Embedding of `FColor` (8-bit RGBA channels, stored as naturals below 256). -/
structure FColor where
  R : ℕ
  G : ℕ
  B : ℕ
  A : ℕ
deriving DecidableEq, Repr

/-- The `ToColor` lambda inside `Encode` (RoadMap.cpp:81-83),
`FMath::FloorToInt(255.0 * (X + 1.0f) / 2.0f)`, composed with the int32→uint8
conversion (reduction mod 256) performed by the `FColor` constructor. -/
def ToColor (x : ℚ) : ℕ := (⌊255 * (x + 1) / 2⌋ % 256).toNat

/-- Embedding of `Encode` (RoadMap.cpp:73-86).  `FColor(r,g,b)` default-fills
alpha with 255. -/
def Encode (d : FRoadMapPixelData) : FColor :=
  if d.bIsOffRoad then ⟨0, 0, 0, 255⟩
  else if !d.bHasDirection then ⟨255, 255, 255, 255⟩
  else ⟨ToColor d.Direction.x, ToColor d.Direction.y, ToColor d.Direction.z, 255⟩

/-- Modelled from the spec: `ECityMapMeshTag` is an enumeration defined outside
src/.  The six enumerators named by `AppendPixel`'s switch are listed, plus
`OtherTag` standing for every remaining enumerator, all of which fall through
the switch with no direction (§4.6: unrecognized tags default to no
direction). -/
inductive ECityMapMeshTag where
  | RoadTwoLanes_LaneRight
  | RoadTwoLanes_LaneLeft
  | Road90DegTurn_Lane0
  | Road90DegTurn_Lane1
  | Road90DegTurn_Lane2
  | Road90DegTurn_Lane3
  | OtherTag
deriving DecidableEq, Repr

/-- The yaw offset (degrees) the switch of `URoadMap::AppendPixel`
(RoadMap.cpp:129-145) adds to the placement rotator, or `none` when the tag is
left directionless. -/
def tagYawOffset : ECityMapMeshTag → Option ℕ
  | .RoadTwoLanes_LaneRight => some 0
  | .Road90DegTurn_Lane0 => some 0
  | .RoadTwoLanes_LaneLeft => some 180
  | .Road90DegTurn_Lane1 => some 180
  | .Road90DegTurn_Lane2 => some 90
  | .Road90DegTurn_Lane3 => some 270
  | .OtherTag => none

/-- Exact rotation of a vector about the world Z axis by a quarter-turn
multiple.  `AppendPixel` adds the yaw offset to the transform's rotator and
rebuilds the forward vector from the sum; in exact arithmetic adding yaw δ
pre-composes the rotation Rz(δ), and for δ ∈ {0°, 90°, 180°, 270°} the action
of Rz(δ) on vectors is this exact integer map. -/
def rotZQuarter (deg : ℕ) (v : Vec3) : Vec3 :=
  if deg = 90 then ⟨-v.y, v.x, v.z⟩
  else if deg = 180 then ⟨-v.x, -v.y, v.z⟩
  else if deg = 270 then ⟨v.y, -v.x, v.z⟩
  else v

/-- The unit quaternion of a 180° yaw rotation (about world Z):
cos 90° + sin 90° · k = k.  Used to state the spec-side formulation of
"the transform's yaw plus 180°". -/
def yaw180Quat : Quaternion ℚ := ⟨0, 0, 0, 1⟩

namespace URoadMap

/-- Embedding of `URoadMap::AppendPixel` (RoadMap.cpp:122-158): append an empty
pixel, mark it on-road, and for direction-bearing tags set the direction to the
forward vector of the placement rotation with the tag's yaw offset added,
negated when `bInvertDirection` is set. -/
def AppendPixel (g : URoadMap) (tag : ECityMapMeshTag) (transform : FTransform)
    (bInvertDirection : Bool) : URoadMap :=
  let data : FRoadMapPixelData :=
    match tagYawOffset tag with
    | none => ⟨false, false, ⟨0, 0, 0⟩⟩
    | some deg =>
      let dir := rotZQuarter deg (GetForwardVector transform.rotation)
      ⟨false, true, if bInvertDirection then -dir else dir⟩
  { g with RoadMap := g.RoadMap ++ [data] }

end URoadMap

/-! Helper lemmas about the sampling loop and list counting. -/

theorem iterCount_guard_iff (extent step : ℚ) (hstep : 0 < step) (i : ℕ) :
    i < iterCount extent step ↔ xIter extent step i < extent := by
  unfold iterCount xIter
  rw [Int.lt_toNat, Int.lt_ceil, lt_div_iff₀ hstep]
  push_cast
  constructor <;> intro h <;> linarith

theorem iterCount_eq_zero (extent step : ℚ) (hstep : 0 < step) (hext : extent ≤ 0) :
    iterCount extent step = 0 := by
  unfold iterCount
  apply Int.toNat_of_nonpos
  apply Int.ceil_le.mpr
  push_cast
  apply div_nonpos_of_nonpos_of_nonneg <;> linarith

theorem length_boxSamples (extentX extentY step : ℚ) :
    (boxSamples extentX extentY step).length =
      iterCount extentX step * iterCount extentY step := by
  unfold boxSamples
  rw [List.length_flatMap]
  have h : ∀ i : ℕ,
      (List.length ∘ fun i => (List.range (iterCount extentY step)).map fun j =>
        (xIter extentX step i, xIter extentY step j)) i = iterCount extentY step := by
    intro i
    simp
  rw [List.map_congr_left fun i _ => h i]
  have hrep : List.map (fun _ : ℕ => iterCount extentY step)
      (List.range (iterCount extentX step)) =
      List.replicate (iterCount extentX step) (iterCount extentY step) := by
    have hmc := List.map_const (List.range (iterCount extentX step)) (iterCount extentY step)
    simp only [Function.const, List.length_range] at hmc
    exact hmc
  rw [hrep, List.sum_replicate, smul_eq_mul]

theorem filter_disjoint_length_le {α : Type} (l : List α) (p q : α → Bool)
    (h : ∀ a ∈ l, p a = true → q a = false) :
    (l.filter p).length + (l.filter q).length ≤ l.length := by
  induction l with
  | nil => simp
  | cons a l ih =>
    have ih2 := ih fun b hb hp => h b (List.mem_cons_of_mem a hb) hp
    by_cases hp : p a = true
    · have hq : q a = false := h a (List.mem_cons_self a l) hp
      simp [List.filter, hp, hq]
      omega
    · simp only [Bool.not_eq_true] at hp
      by_cases hq : q a = true <;> simp [List.filter, hp, hq] <;> omega

theorem clamp_bounds (v : ℚ) (mn mx : ℤ) (h : mn ≤ mx) :
    mn ≤ ClampFloatToUInt v mn mx ∧ ClampFloatToUInt v mn mx ≤ mx := by
  unfold ClampFloatToUInt
  split_ifs <;> omega

/-- C1: for every grid and every call to `Intersect` with positive sampling
density (the domain on which the source's sampling loops terminate; see C9),
both returned fractions lie in [0,1] and their sum is at most 1, because each
sample is classified into at most one of the two mutually exclusive categories
(off-road checked first, opposite-lane only otherwise). -/
theorem claim_C1 (g : URoadMap) (t : FTransform) (ext : Vec3) (c : ℚ) (_hc : 0 < c) :
    0 ≤ (g.Intersect t ext c).1.OffRoad ∧ (g.Intersect t ext c).1.OffRoad ≤ 1 ∧
    0 ≤ (g.Intersect t ext c).1.OppositeLane ∧ (g.Intersect t ext c).1.OppositeLane ≤ 1 ∧
    (g.Intersect t ext c).1.OffRoad + (g.Intersect t ext c).1.OppositeLane ≤ 1 := by
  unfold URoadMap.Intersect
  set L := boxSamples ext.x ext.y (1 / c) with hL
  set dataAt := fun s : ℚ × ℚ => g.GetDataAt (t.TransformPosition ⟨s.1, s.2, 0⟩) with hdataAt
  set p := fun s : ℚ × ℚ => (dataAt s).bIsOffRoad with hp
  set q := fun s : ℚ × ℚ =>
    isOppositeLane (dataAt s) (GetForwardVector t.rotation) with hq
  have hdisj : ∀ s ∈ L, p s = true → q s = false := by
    intro s _ hps
    have hps' : (dataAt s).bIsOffRoad = true := hps
    simp [hq, isOppositeLane, hps']
  have hsum := filter_disjoint_length_le L p q hdisj
  have hoff := List.length_filter_le p L
  have hopp := List.length_filter_le q L
  by_cases h0 : 0 < L.length
  · have hn : (0 : ℚ) < (L.length : ℚ) := by exact_mod_cast h0
    simp only [h0, if_pos]
    refine ⟨?_, ?_, ?_, ?_, ?_⟩
    · exact div_nonneg (by positivity) (le_of_lt hn)
    · exact (div_le_one hn).mpr (by exact_mod_cast hoff)
    · exact div_nonneg (by positivity) (le_of_lt hn)
    · exact (div_le_one hn).mpr (by exact_mod_cast hopp)
    · rw [div_add_div_same]
      exact (div_le_one hn).mpr (by exact_mod_cast hsum)
  · simp only [h0, if_neg, not_false_iff]
    norm_num

/-- C1 witness: concrete evaluation on the freshly constructed grid with a
1×1 footprint at density 1. -/
theorem claim_C1_witness :
    (0 : ℚ) < 1 ∧
      (0 ≤ (URoadMap.init.Intersect idTransform ⟨1, 1, 0⟩ 1).1.OffRoad ∧
        (URoadMap.init.Intersect idTransform ⟨1, 1, 0⟩ 1).1.OffRoad ≤ 1 ∧
        0 ≤ (URoadMap.init.Intersect idTransform ⟨1, 1, 0⟩ 1).1.OppositeLane ∧
        (URoadMap.init.Intersect idTransform ⟨1, 1, 0⟩ 1).1.OppositeLane ≤ 1 ∧
        (URoadMap.init.Intersect idTransform ⟨1, 1, 0⟩ 1).1.OffRoad +
          (URoadMap.init.Intersect idTransform ⟨1, 1, 0⟩ 1).1.OppositeLane ≤ 1) :=
  ⟨one_pos, claim_C1 URoadMap.init idTransform ⟨1, 1, 0⟩ 1 one_pos⟩

/-- C2: for every valid grid and every finite world position, the point query's
floor-then-clamp mapping yields pixel indices inside
[0,width-1]×[0,height-1], and the resulting row-major cell index is inside the
cell array, so every finite world input returns some cell of the grid. -/
theorem claim_C2 (g : URoadMap) (loc : Vec3) (hv : g.IsValid = true) :
    0 ≤ (g.worldToPixel loc).1 ∧ (g.worldToPixel loc).1 ≤ (g.Width : ℤ) - 1 ∧
    0 ≤ (g.worldToPixel loc).2 ∧ (g.worldToPixel loc).2 ≤ (g.Height : ℤ) - 1 ∧
    (g.worldToPixel loc).2.toNat * g.Width + (g.worldToPixel loc).1.toNat <
      g.RoadMap.length := by
  unfold URoadMap.IsValid at hv
  simp only [Bool.and_eq_true, decide_eq_true_eq] at hv
  obtain ⟨hlen, hpos⟩ := hv
  have hW : 0 < g.Width := Nat.pos_of_ne_zero fun h => by simp [h] at hpos
  have hH : 0 < g.Height := Nat.pos_of_ne_zero fun h => by simp [h] at hpos
  have hWle : (0 : ℤ) ≤ (g.Width : ℤ) - 1 := by
    have : (1 : ℤ) ≤ (g.Width : ℤ) := by exact_mod_cast hW
    omega
  have hHle : (0 : ℤ) ≤ (g.Height : ℤ) - 1 := by
    have : (1 : ℤ) ≤ (g.Height : ℤ) := by exact_mod_cast hH
    omega
  unfold URoadMap.worldToPixel
  set lx := g.PixelsPerCentimeter *
    (g.WorldToMap.TransformPosition loc - g.MapOffset).x with hlx
  set ly := g.PixelsPerCentimeter *
    (g.WorldToMap.TransformPosition loc - g.MapOffset).y with hly
  obtain ⟨hx0, hx1⟩ := clamp_bounds lx 0 ((g.Width : ℤ) - 1) hWle
  obtain ⟨hy0, hy1⟩ := clamp_bounds ly 0 ((g.Height : ℤ) - 1) hHle
  refine ⟨hx0, hx1, hy0, hy1, ?_⟩
  rw [hlen]
  have hxN : (ClampFloatToUInt lx 0 ((g.Width : ℤ) - 1)).toNat < g.Width := by omega
  have hyN : (ClampFloatToUInt ly 0 ((g.Height : ℤ) - 1)).toNat < g.Height := by omega
  calc (ClampFloatToUInt ly 0 ((g.Height : ℤ) - 1)).toNat * g.Width +
        (ClampFloatToUInt lx 0 ((g.Width : ℤ) - 1)).toNat
      < ((ClampFloatToUInt ly 0 ((g.Height : ℤ) - 1)).toNat + 1) * g.Width := by
        rw [Nat.add_mul, one_mul]
        omega
    _ ≤ g.Height * g.Width := Nat.mul_le_mul_right _ (by omega)
    _ = g.Width * g.Height := Nat.mul_comm _ _

/-- C2 witness: the freshly constructed grid is valid and a far-away world
position still maps inside the grid. -/
theorem claim_C2_witness :
    URoadMap.init.IsValid = true ∧
      (0 ≤ (URoadMap.init.worldToPixel ⟨1000, -500, 3⟩).1 ∧
        (URoadMap.init.worldToPixel ⟨1000, -500, 3⟩).1 ≤ (URoadMap.init.Width : ℤ) - 1 ∧
        0 ≤ (URoadMap.init.worldToPixel ⟨1000, -500, 3⟩).2 ∧
        (URoadMap.init.worldToPixel ⟨1000, -500, 3⟩).2 ≤ (URoadMap.init.Height : ℤ) - 1 ∧
        (URoadMap.init.worldToPixel ⟨1000, -500, 3⟩).2.toNat * URoadMap.init.Width +
          (URoadMap.init.worldToPixel ⟨1000, -500, 3⟩).1.toNat <
          URoadMap.init.RoadMap.length) :=
  ⟨by decide, claim_C2 URoadMap.init ⟨1000, -500, 3⟩ (by decide)⟩

/-- C3: on a valid grid (unit rotation quaternion, positive resolution), the
world-to-pixel mapping of `GetDataAt` is a left inverse of `GetWorldLocation`
on in-range pixel indices: the transform and its inverse, the offset addition
and subtraction, and the division and multiplication by the resolution cancel
exactly, and flooring recovers the original integer indices. -/
theorem claim_C3 (g : URoadMap) (x y : ℕ)
    (hq : Quaternion.normSq g.WorldToMap.rotation = 1)
    (hppc : 0 < g.PixelsPerCentimeter)
    (hx : x < g.Width) (hy : y < g.Height) :
    g.worldToPixel (g.GetWorldLocation x y) = ((x : ℤ), (y : ℤ)) := by
  unfold URoadMap.GetWorldLocation URoadMap.worldToPixel
  rw [transform_inv_cancel _ _ hq]
  have hcancel : ∀ a b : Vec3, a + b - b = a := by
    intro a b
    rw [Vec3.ext_iff]
    refine ⟨?_, ?_, ?_⟩ <;> simp
  rw [hcancel]
  have hppc0 : g.PixelsPerCentimeter ≠ 0 := ne_of_gt hppc
  have hxval : g.PixelsPerCentimeter * ((x : ℚ) / g.PixelsPerCentimeter) = (x : ℚ) := by
    rw [mul_comm, div_mul_cancel₀ _ hppc0]
  have hyval : g.PixelsPerCentimeter * ((y : ℚ) / g.PixelsPerCentimeter) = (y : ℚ) := by
    rw [mul_comm, div_mul_cancel₀ _ hppc0]
  show (ClampFloatToUInt (g.PixelsPerCentimeter * ((x : ℚ) / g.PixelsPerCentimeter)) 0
      ((g.Width : ℤ) - 1),
    ClampFloatToUInt (g.PixelsPerCentimeter * ((y : ℚ) / g.PixelsPerCentimeter)) 0
      ((g.Height : ℤ) - 1)) = ((x : ℤ), (y : ℤ))
  rw [hxval, hyval]
  unfold ClampFloatToUInt
  rw [Int.floor_natCast, Int.floor_natCast]
  have hxZ : (x : ℤ) < (g.Width : ℤ) := by exact_mod_cast hx
  have hyZ : (y : ℤ) < (g.Height : ℤ) := by exact_mod_cast hy
  rw [Prod.mk.injEq]
  constructor <;> split_ifs <;> omega

/-- C3 witness: round-trip at pixel (2,1) of a 4×3 grid with resolution 2 and a
nontrivial offset. -/
theorem claim_C3_witness :
    Quaternion.normSq (URoadMap.init.Set 4 3 2 idTransform ⟨5, 7, 0⟩).WorldToMap.rotation = 1 ∧
      (0 : ℚ) < (URoadMap.init.Set 4 3 2 idTransform ⟨5, 7, 0⟩).PixelsPerCentimeter ∧
      2 < (URoadMap.init.Set 4 3 2 idTransform ⟨5, 7, 0⟩).Width ∧
      1 < (URoadMap.init.Set 4 3 2 idTransform ⟨5, 7, 0⟩).Height ∧
      (URoadMap.init.Set 4 3 2 idTransform ⟨5, 7, 0⟩).worldToPixel
        ((URoadMap.init.Set 4 3 2 idTransform ⟨5, 7, 0⟩).GetWorldLocation 2 1) =
        ((2 : ℤ), (1 : ℤ)) := by
  have h1 : Quaternion.normSq
      (URoadMap.init.Set 4 3 2 idTransform ⟨5, 7, 0⟩).WorldToMap.rotation = 1 := by
    show Quaternion.normSq 1 = 1
    exact map_one Quaternion.normSq
  have h2 : (0 : ℚ) < (URoadMap.init.Set 4 3 2 idTransform ⟨5, 7, 0⟩).PixelsPerCentimeter := by
    norm_num [URoadMap.Set, URoadMap.init, URoadMap.AppendEmptyPixel]
  exact ⟨h1, h2, by decide, by decide,
    claim_C3 (URoadMap.init.Set 4 3 2 idTransform ⟨5, 7, 0⟩) 2 1 h1 h2 (by decide) (by decide)⟩

theorem clamp_to_zero (v : ℚ) : ClampFloatToUInt v 0 0 = 0 := by
  unfold ClampFloatToUInt
  split_ifs <;> omega

/-- On a 1×1 grid every world position maps to cell 0. -/
theorem GetDataAt_one_one (g : URoadMap) (hW : g.Width = 1) (hH : g.Height = 1)
    (loc : Vec3) : g.GetDataAt loc = g.RoadMap.getD 0 emptyPixel := by
  unfold URoadMap.GetDataAt URoadMap.GetDataAtPixel URoadMap.worldToPixel
  rw [hW, hH]
  norm_num [clamp_to_zero]

/-- C4: if every sample taken by `Intersect` lands in an on-road cell whose
recorded direction is (1,0,0) while the footprint's forward vector is also
(1,0,0) (dot product strictly positive at every sample), and at least one
sample is taken, the result is `OppositeLane = 1` and `OffRoad = 0`: a
same-direction dot product is counted as wrong-way. -/
theorem claim_C4 (g : URoadMap) (t : FTransform) (ext : Vec3) (c : ℚ)
    (_hc : 0 < c)
    (hfwd : GetForwardVector t.rotation = ⟨1, 0, 0⟩)
    (hne : boxSamples ext.x ext.y (1 / c) ≠ [])
    (hcell : ∀ s ∈ boxSamples ext.x ext.y (1 / c),
      g.GetDataAt (t.TransformPosition ⟨s.1, s.2, 0⟩) = ⟨false, true, ⟨1, 0, 0⟩⟩) :
    (g.Intersect t ext c).1 = ⟨0, 1⟩ := by
  have h0 : 0 < (boxSamples ext.x ext.y (1 / c)).length := List.length_pos.mpr hne
  have hoff : ((boxSamples ext.x ext.y (1 / c)).filter fun s =>
      (g.GetDataAt (t.TransformPosition ⟨s.1, s.2, 0⟩)).bIsOffRoad) = [] := by
    rw [List.filter_eq_nil_iff]
    intro s hs
    rw [hcell s hs]
    simp
  have hopp : ((boxSamples ext.x ext.y (1 / c)).filter fun s =>
      isOppositeLane (g.GetDataAt (t.TransformPosition ⟨s.1, s.2, 0⟩))
        (GetForwardVector t.rotation)) = boxSamples ext.x ext.y (1 / c) := by
    rw [List.filter_eq_self]
    intro s hs
    rw [hcell s hs, hfwd]
    norm_num [isOppositeLane, dot3]
  have hlen : ((boxSamples ext.x ext.y (1 / c)).length : ℚ) ≠ 0 := by
    exact_mod_cast Nat.pos_iff_ne_zero.mp h0
  unfold URoadMap.Intersect
  simp only [hoff, hopp, List.length_nil, h0, if_pos]
  rw [Nat.cast_zero, zero_div, div_self hlen]

/-- C4 witness grid: a single on-road cell with direction (1,0,0). -/
def oneLaneCellMap : URoadMap :=
  ⟨1, 1, 1, idTransform, ⟨0, 0, 0⟩, [⟨false, true, ⟨1, 0, 0⟩⟩]⟩

/-- C4 witness: a 1×1 footprint at density 1 over that grid, forward (1,0,0),
yields fractions (0, 1). -/
theorem claim_C4_witness :
    (0 : ℚ) < 1 ∧
      GetForwardVector idTransform.rotation = ⟨1, 0, 0⟩ ∧
      boxSamples (1 : ℚ) 1 (1 / 1) ≠ [] ∧
      (∀ s ∈ boxSamples (1 : ℚ) 1 (1 / 1),
        oneLaneCellMap.GetDataAt (idTransform.TransformPosition ⟨s.1, s.2, 0⟩) =
          ⟨false, true, ⟨1, 0, 0⟩⟩) ∧
      (oneLaneCellMap.Intersect idTransform ⟨1, 1, 0⟩ 1).1 = ⟨0, 1⟩ := by
  have hfwd : GetForwardVector idTransform.rotation = ⟨1, 0, 0⟩ := by
    simp [GetForwardVector, idTransform]
  have hcount : iterCount (1 : ℚ) (1 / 1) = 2 := by
    unfold iterCount
    norm_num
    rfl
  have hne : boxSamples (1 : ℚ) 1 (1 / 1) ≠ [] := by
    intro h
    have hlen := congrArg List.length h
    rw [length_boxSamples, hcount] at hlen
    simp at hlen
  have hcell : ∀ s ∈ boxSamples (1 : ℚ) 1 (1 / 1),
      oneLaneCellMap.GetDataAt (idTransform.TransformPosition ⟨s.1, s.2, 0⟩) =
        ⟨false, true, ⟨1, 0, 0⟩⟩ := by
    intro s _
    rw [GetDataAt_one_one oneLaneCellMap rfl rfl]
    rfl
  exact ⟨one_pos, hfwd, hne, hcell,
    claim_C4 oneLaneCellMap idTransform ⟨1, 1, 0⟩ 1 one_pos hfwd hne hcell⟩

/-- C5: whenever `Intersect` takes zero samples — in particular for zero or
negative extents on either sampled axis — it returns exactly {0, 0}, emits the
zero-checks warning, and performs no division (the zero-sample case is the
else-branch, which never divides). -/
theorem claim_C5 (g : URoadMap) (t : FTransform) (ext : Vec3) (c : ℚ)
    (hc : 0 < c) (hext : ext.x ≤ 0 ∨ ext.y ≤ 0) :
    g.Intersect t ext c = (⟨0, 0⟩, true) := by
  have hstep : 0 < 1 / c := by positivity
  have hlen : (boxSamples ext.x ext.y (1 / c)).length = 0 := by
    rw [length_boxSamples]
    rcases hext with h | h
    · rw [iterCount_eq_zero _ _ hstep h, Nat.zero_mul]
    · rw [iterCount_eq_zero _ _ hstep h, Nat.mul_zero]
  have hnil : boxSamples ext.x ext.y (1 / c) = [] := List.length_eq_zero.mp hlen
  have hnil2 : boxSamples ext.x ext.y c⁻¹ = [] := by rw [← one_div]; exact hnil
  unfold URoadMap.Intersect
  simp [hnil, hnil2]

/-- C5 witness: a zero-length X extent at density 1 on the fresh grid yields
{0,0} with the warning flag set. -/
theorem claim_C5_witness :
    (0 : ℚ) < 1 ∧ ((0 : ℚ) ≤ 0 ∨ (5 : ℚ) ≤ 0) ∧
      URoadMap.init.Intersect idTransform ⟨0, 5, 3⟩ 1 = (⟨0, 0⟩, true) :=
  ⟨one_pos, Or.inl le_rfl, claim_C5 URoadMap.init idTransform ⟨0, 5, 3⟩ 1 one_pos (Or.inl le_rfl)⟩

theorem ToColor_eq_floor (x : ℚ) (h1 : -1 ≤ x) (h2 : x ≤ 1) :
    ((ToColor x : ℤ)) = ⌊255 * (x + 1) / 2⌋ := by
  unfold ToColor
  have hlo : (0 : ℤ) ≤ ⌊255 * (x + 1) / 2⌋ := by
    apply Int.floor_nonneg.mpr
    apply div_nonneg (by linarith) (by norm_num)
  have hhi : ⌊255 * (x + 1) / 2⌋ < 256 := by
    have hle : 255 * (x + 1) / 2 ≤ 255 := by linarith
    have hfl : (⌊255 * (x + 1) / 2⌋ : ℚ) ≤ 255 := le_trans (Int.floor_le _) hle
    have : ⌊255 * (x + 1) / 2⌋ ≤ 255 := by exact_mod_cast hfl
    omega
  rw [Int.emod_eq_of_lt hlo hhi, Int.toNat_of_nonneg hlo]

/-- C6: `Encode` is a pure function of the cell: off-road cells map to opaque
black regardless of the direction field's contents, directionless on-road cells
map to opaque white regardless of the direction field's contents, and for
direction-bearing on-road cells each channel is floor(255·(component+1)/2)
with alpha fully opaque — the channel formula stated under the source's
normalized-direction assumption (components in [-1,1]); the first two branches
carry no such restriction. -/
theorem claim_C6 (d : FRoadMapPixelData) :
    (d.bIsOffRoad = true → Encode d = ⟨0, 0, 0, 255⟩) ∧
    (d.bIsOffRoad = false → d.bHasDirection = false → Encode d = ⟨255, 255, 255, 255⟩) ∧
    (d.bIsOffRoad = false → d.bHasDirection = true →
      -1 ≤ d.Direction.x → d.Direction.x ≤ 1 →
      -1 ≤ d.Direction.y → d.Direction.y ≤ 1 →
      -1 ≤ d.Direction.z → d.Direction.z ≤ 1 →
      ((Encode d).R : ℤ) = ⌊255 * (d.Direction.x + 1) / 2⌋ ∧
      ((Encode d).G : ℤ) = ⌊255 * (d.Direction.y + 1) / 2⌋ ∧
      ((Encode d).B : ℤ) = ⌊255 * (d.Direction.z + 1) / 2⌋ ∧
      (Encode d).A = 255) := by
  refine ⟨?_, ?_, ?_⟩
  · intro h
    simp [Encode, h]
  · intro h h'
    simp [Encode, h, h']
  · intro h h' h1 h2 h3 h4 h5 h6
    simp only [Encode, h, h', Bool.not_true, Bool.false_eq_true, if_false]
    exact ⟨ToColor_eq_floor _ h1 h2, ToColor_eq_floor _ h3 h4, ToColor_eq_floor _ h5 h6,
      trivial⟩

/-- C6 witness: an off-road cell and a directionless on-road cell whose stale
direction field (2,0,0) lies outside [-1,1] still encode to black and white
respectively, and a direction-bearing cell at (1, 0, -1) gets the channel
formula. -/
theorem claim_C6_witness :
    Encode ⟨true, false, ⟨2, 0, 0⟩⟩ = ⟨0, 0, 0, 255⟩ ∧
    Encode ⟨false, false, ⟨2, 0, 0⟩⟩ = ⟨255, 255, 255, 255⟩ ∧
    (((Encode ⟨false, true, ⟨1, 0, -1⟩⟩).R : ℤ) = ⌊(255 : ℚ) * (1 + 1) / 2⌋ ∧
      ((Encode ⟨false, true, ⟨1, 0, -1⟩⟩).G : ℤ) = ⌊(255 : ℚ) * (0 + 1) / 2⌋ ∧
      ((Encode ⟨false, true, ⟨1, 0, -1⟩⟩).B : ℤ) = ⌊(255 : ℚ) * (-1 + 1) / 2⌋ ∧
      (Encode ⟨false, true, ⟨1, 0, -1⟩⟩).A = 255) :=
  ⟨(claim_C6 ⟨true, false, ⟨2, 0, 0⟩⟩).1 rfl,
    (claim_C6 ⟨false, false, ⟨2, 0, 0⟩⟩).2.1 rfl rfl,
    (claim_C6 ⟨false, true, ⟨1, 0, -1⟩⟩).2.2 rfl rfl (by norm_num) (by norm_num)
      (by norm_num) (by norm_num) (by norm_num) (by norm_num)⟩

theorem rotateVector_yaw180 (v : Vec3) : rotateVector yaw180Quat v = ⟨-v.x, -v.y, v.z⟩ := by
  unfold rotateVector quatIm yaw180Quat Vec3.toQuat
  rw [Vec3.ext_iff]
  refine ⟨?_, ?_, ?_⟩ <;> simp

/-- Adding 180° of yaw to a rotation turns its forward vector by the exact
half-turn about Z. -/
theorem fwd_yaw180_comp (q : Quaternion ℚ) :
    GetForwardVector (yaw180Quat * q) = rotZQuarter 180 (GetForwardVector q) := by
  unfold GetForwardVector
  rw [rotateVector_mul, rotateVector_yaw180]
  simp [rotZQuarter]

/-- C7: `AppendPixel` with the lane-left tag appends an on-road cell whose
direction is the forward vector of the placement rotation with 180° of yaw
added (stated as composition with the 180°-yaw unit quaternion); and for every
direction-bearing tag, `bInvertDirection = true` produces exactly the negation
of the direction produced with `bInvertDirection = false` for the same tag and
transform. -/
theorem claim_C7 (t : FTransform) (g g2 : URoadMap) (tag : ECityMapMeshTag)
    (htag : (tagYawOffset tag).isSome = true) :
    (g.AppendPixel .RoadTwoLanes_LaneLeft t false).RoadMap.getLast? =
      some ⟨false, true, GetForwardVector (yaw180Quat * t.rotation)⟩ ∧
    ((g.AppendPixel tag t true).RoadMap.getLast?).map FRoadMapPixelData.Direction =
      ((g2.AppendPixel tag t false).RoadMap.getLast?).map (fun d => -d.Direction) := by
  constructor
  · simp [URoadMap.AppendPixel, tagYawOffset, List.getLast?_concat, fwd_yaw180_comp]
  · cases tag <;>
      simp_all [URoadMap.AppendPixel, tagYawOffset, List.getLast?_concat]

/-- C7 witness: lane-left append on the fresh grid with the identity placement
transform, in both inversion modes. -/
theorem claim_C7_witness :
    (tagYawOffset .RoadTwoLanes_LaneLeft).isSome = true ∧
      ((URoadMap.init.AppendPixel .RoadTwoLanes_LaneLeft idTransform false).RoadMap.getLast? =
        some ⟨false, true, GetForwardVector (yaw180Quat * idTransform.rotation)⟩ ∧
      ((URoadMap.init.AppendPixel .RoadTwoLanes_LaneLeft idTransform
          true).RoadMap.getLast?).map FRoadMapPixelData.Direction =
        ((URoadMap.init.AppendPixel .RoadTwoLanes_LaneLeft idTransform
          false).RoadMap.getLast?).map (fun d => -d.Direction)) :=
  ⟨rfl, claim_C7 idTransform URoadMap.init URoadMap.init .RoadTwoLanes_LaneLeft rfl⟩

/-- C8 counterexample: `Set` updates the dimensions without resizing the cell
array, so after construction followed by `Set 2 2` the invariant
`cells.length = width*height` fails (1 cell versus 4). -/
theorem claim_C8_counterexample :
    ¬ ((URoadMap.init.Set 2 2 1 idTransform ⟨0, 0, 0⟩).RoadMap.length =
        (URoadMap.init.Set 2 2 1 idTransform ⟨0, 0, 0⟩).Width *
          (URoadMap.init.Set 2 2 1 idTransform ⟨0, 0, 0⟩).Height) := by
  decide

/-- C8 (amended): the invariant `cells.length = width*height` holds after
construction — the fresh grid is valid and every point query on it returns the
single off-road cell — and every append grows the cell array by exactly one,
but `Set` leaves the cell array unchanged, so a `Set` whose new `width*height`
differs from the current cell count breaks the invariant until the caller has
appended the matching number of cells. -/
theorem claim_C8 :
    URoadMap.init.RoadMap.length = URoadMap.init.Width * URoadMap.init.Height ∧
    URoadMap.init.IsValid = true ∧
    (∀ loc : Vec3, URoadMap.init.GetDataAt loc = emptyPixel) ∧
    (∀ (g : URoadMap) (tag : ECityMapMeshTag) (t : FTransform) (b : Bool),
      (g.AppendPixel tag t b).RoadMap.length = g.RoadMap.length + 1) ∧
    (∀ g : URoadMap, g.AppendEmptyPixel.RoadMap.length = g.RoadMap.length + 1) ∧
    (∀ (g : URoadMap) (w h : ℕ) (p : ℚ) (t : FTransform) (o : Vec3),
      (g.Set w h p t o).RoadMap = g.RoadMap) := by
  refine ⟨rfl, rfl, ?_, ?_, ?_, ?_⟩
  · intro loc
    rw [GetDataAt_one_one URoadMap.init rfl rfl]
    rfl
  · intro g tag t b
    simp [URoadMap.AppendPixel]
  · intro g
    simp [URoadMap.AppendEmptyPixel]
  · intro g w h p t o
    rfl

/-- C9 counterexample: with sampling density -1 (step = 1/(-1) = -1) and
extent 1, the guard of Intersect's sampling loop holds after every iteration:
the loop never terminates, refuting termination for every density. -/
theorem claim_C9_counterexample : ¬ loopTerminates 1 (1 / (-1 : ℚ)) := by
  rintro ⟨n, hn⟩
  apply hn
  unfold xIter
  have hcast : (0 : ℚ) ≤ (n : ℚ) := Nat.cast_nonneg n
  have h1 : (1 : ℚ) / (-1) = -1 := by norm_num
  rw [h1]
  nlinarith

/-- C9 (amended): Intersect's sampling loops terminate for every positive
sampling density (the guard fails after `iterCount` = ⌈2·extent·density⌉
iterations, so the sampling cost is bounded by footprint side × density per
axis); for a nonpositive step with positive extent the loop does not
terminate (see the counterexample). -/
theorem claim_C9 (extent c : ℚ) (hc : 0 < c) : loopTerminates extent (1 / c) := by
  refine ⟨iterCount extent (1 / c), ?_⟩
  intro hguard
  have hstep : 0 < 1 / c := by positivity
  exact lt_irrefl _ ((iterCount_guard_iff extent (1 / c) hstep _).mpr hguard)

/-- C9 witness: the loop over extent 1 at density 1 terminates. -/
theorem claim_C9_witness : (0 : ℚ) < 1 ∧ loopTerminates 1 (1 / 1) :=
  ⟨one_pos, claim_C9 1 1 one_pos⟩

/-- C10: the result of Intersect is independent of the Z component of the box
extent — samples are generated only over the X and Y extents at local z = 0, so
two calls differing only in `BoxExtent.Z` return identical results. -/
theorem claim_C10 (g : URoadMap) (t : FTransform) (ex ey z1 z2 c : ℚ) (_hc : 0 < c) :
    g.Intersect t ⟨ex, ey, z1⟩ c = g.Intersect t ⟨ex, ey, z2⟩ c := rfl

/-- C10 witness: concrete calls with Z extents 0 and 5 agree. -/
theorem claim_C10_witness :
    (0 : ℚ) < 1 ∧
      URoadMap.init.Intersect idTransform ⟨1, 1, 0⟩ 1 =
        URoadMap.init.Intersect idTransform ⟨1, 1, 5⟩ 1 :=
  ⟨one_pos, claim_C10 URoadMap.init idTransform 1 1 0 5 1 one_pos⟩

end RoadMapModel
